import Mathlib

set_option maxRecDepth 10000

/-!
Shallow embedding of the voice-transcription pipeline in `src/main.py`
(class `VoiceTranscriber`): the voice-activity tracker fed by
`on_voice_state_update`, the segment-recording cycle `cycle_recording`,
the staging-file sweeper `continuous_processing`, and the name resolver
`get_username`.  Time is modelled as rational seconds; the two
cooperative loops are modelled as step functions applied to per-tick
traces of observations, one observation per poll iteration.
-/

namespace VoiceTranscriber

/-- Python two-argument `max` on rationals: the first argument when it
is at least the second, the second otherwise. -/
def pyMax (a b : ℚ) : ℚ := if b ≤ a then a else b

/-- The voice-activity cell of the bot: `self.is_speaking` and
`self.last_speech_time` (lines 40-41 of `src/main.py`). -/
structure TrackerState where
  speaking : Bool
  lastSpeech : ℚ
  deriving Repr, DecidableEq

/-- The event handler `on_voice_state_update` (lines 115-127): a speaking
event sets `is_speaking` and refreshes `last_speech_time` to now; a
non-speaking event only clears `is_speaking`. -/
def onActivity (now : ℚ) (isSpeaking : Bool) (s : TrackerState) : TrackerState :=
  if isSpeaking then { speaking := true, lastSpeech := now }
  else { s with speaking := false }

/-- What one iteration of the recorder poll loop reads: the wall clock
`time.time()` and the tracker cell (`self.is_speaking`,
`self.last_speech_time`). -/
structure RecObs where
  time : ℚ
  speaking : Bool
  lastSpeech : ℚ
  deriving Repr, DecidableEq

/-- The per-cycle mutable state of the inner loop of `cycle_recording`:
`recording_duration` (initial value 20, line 76) and whether the
`break` at line 99 has fired. -/
structure RecState where
  duration : ℚ
  stopped : Bool
  deriving Repr, DecidableEq

/-- One iteration of the inner `while True` loop of `cycle_recording`
(lines 80-101 of `src/main.py`), given the cycle `start_time`:

* if `self.is_speaking`: `recording_duration = max(recording_duration,
  elapsed_time + 2)` and continue;
* else `break` iff `time_since_last_speech >= 1.0 and
  elapsed_time >= recording_duration`.

After the `break` has fired the cycle is over and further observations
leave the state unchanged. -/
def cycleStep (start : ℚ) (st : RecState) (o : RecObs) : RecState :=
  if st.stopped then st
  else
    let elapsed := o.time - start
    let sinceSpeech := o.time - o.lastSpeech
    if o.speaking then
      { st with duration := pyMax st.duration (elapsed + 2) }
    else if 1 ≤ sinceSpeech ∧ st.duration ≤ elapsed then
      { st with stopped := true }
    else
      st

/-- The inner loop of one recording cycle run over a trace of tick
observations, from the initial state `recording_duration = 20`
(line 76: base recording duration in seconds). -/
def cycleRun (start : ℚ) (obs : List RecObs) : RecState :=
  obs.foldl (cycleStep start) { duration := 20, stopped := false }

/-- Tick observations for the scenario with activity events
speaking(true) at 0 s and speaking(false) at 3 s and no further speech:
the tracker (see `onActivity`) reports speaking exactly before 3 s and
`last_speech_time = 0` throughout; the recorder polls every 0.1 s from
a cycle that starts at 0 s.  Ticks 0 to 200 cover 0 s to 20 s. -/
def scenarioObs : List RecObs :=
  (List.range 201).map fun k =>
    { time := (k : ℚ) / 10, speaking := k < 30, lastSpeech := 0 }

/-- The control state of the `cycle_recording` task as a whole
(lines 63-110): between cycles it is at the `while self.is_processing`
check; inside a cycle it is in the inner poll loop; after the inner
`break` it stops the capture and awaits the recording (lines 104-106)
before returning to the outer check; once the outer check fails the
coroutine returns. -/
inductive RecPhase where
  | checking
  | recording (start : ℚ) (st : RecState)
  | finalizing
  | exited
  deriving Repr, DecidableEq

/-- One await-to-await step of the `cycle_recording` task, reading the
session flag `self.is_processing` and the tracker cell.  The flag is
read only at the outer `while` check (line 66); the inner poll loop
(lines 80-101, here via `cycleStep`) never reads it. -/
def recorderStep (flag : Bool) (o : RecObs) : RecPhase → RecPhase
  | .checking =>
      if flag then .recording o.time { duration := 20, stopped := false }
      else .exited
  | .recording start st =>
      let st' := cycleStep start st o
      if st'.stopped then .finalizing else .recording start st'
  | .finalizing => .checking
  | .exited => .exited

/-- The `cycle_recording` task run over a trace of per-tick inputs
(session flag, tracker observation). -/
def recorderRun (trace : List (Bool × RecObs)) (p : RecPhase) : RecPhase :=
  trace.foldl (fun q x => recorderStep x.1 x.2 q) p

/-- A session-cancellation trace: the flag is true at the tick that
starts a cycle at time 0 and false from time 0.1 on; nobody speaks
(last speech long past). -/
def cancelTrace : List (Bool × RecObs) :=
  [(true, { time := 0, speaking := false, lastSpeech := -100 }),
   (false, { time := 1/10, speaking := false, lastSpeech := -100 }),
   (false, { time := 2/10, speaking := false, lastSpeech := -100 })]

/-- The control state of the `continuous_processing` task: it is either
at its `while self.is_processing` check (line 164), one check per
0.5 s sweep tick, or it has returned. -/
inductive SweepPhase where
  | running
  | exited
  deriving Repr, DecidableEq

/-- One sweep tick of `continuous_processing` as far as the session
flag is concerned: the flag is read at the top of every tick. -/
def sweeperStep (flag : Bool) : SweepPhase → SweepPhase
  | .running => if flag then .running else .exited
  | .exited => .exited

/-- Characters removed by Python `str.strip()` with no argument
(ASCII whitespace). -/
def pyWhitespace (c : Char) : Bool :=
  c = ' ' || c = '\t' || c = '\n' || c = '\r' || c = '\x0b' || c = '\x0c'

/-- Python `text.strip()`: drop whitespace from both ends. -/
def pyStrip (s : String) : String :=
  ⟨((s.data.dropWhile pyWhitespace).reverse.dropWhile pyWhitespace).reverse⟩

/-- Python `str.split(sep)` with an explicit one-character separator:
splits on every occurrence and keeps empty tokens, so the result always
has one more token than there are separators. -/
def pySplit (sep : Char) : List Char → List (List Char)
  | [] => [[]]
  | c :: cs =>
    if c = sep then [] :: pySplit sep cs
    else
      match pySplit sep cs with
      | [] => [[c]]
      | t :: ts => (c :: t) :: ts

/-- Line 190 of `src/main.py`:
`file_path.stem.split('_')[1] if '_' in file_path.stem else file_path.stem`.
When the stem contains an underscore the token at index 1 exists, so the
`getD` default is never used. -/
def extractUserId (stem : List Char) : List Char :=
  if '_' ∈ stem then (pySplit '_' stem).getD 1 [] else stem

/-- A staging file as the sweeper sees it: filename stem, last-modified
time (`st_mtime`) and size in bytes (`st_size`). -/
structure FileInfo where
  stem : List Char
  mtime : ℚ
  size : ℕ
  deriving Repr, DecidableEq

/-- What processing one staging file did: whether the transcription
engine was invoked, whether a username lookup happened, the message
sent to the channel (username and trimmed text), and how many times
`file_path.unlink()` removed the file. -/
structure FileOutcome where
  transcribed : Bool
  lookedUp : Bool
  event : Option (String × String)
  deletions : ℕ
  deriving Repr, DecidableEq

/-- The per-file body of the sweep loop in `continuous_processing`
(lines 167-200 of `src/main.py`), at wall-clock time `now` with the
tracker reporting `speaking`:

* skip entirely unless `file_age > 0.75 and not self.is_speaking`
  (line 171); a skipped file is left untouched;
* if `file_size > 1024` (line 173) invoke the engine (`engine` is its
  result for this file: text, or an exception);
* if the engine raises, the per-file `except` handler (lines 197-200)
  logs and unlinks the still-existing file;
* otherwise, if the returned text is non-empty after `strip()`, extract
  the user id from the stem, resolve it to a username and send
  `f"{username}: {transcription}"` (lines 188-193);
* finally unlink the file (lines 195-196); the `exists()` guard means
  the file is removed at most once on every path. -/
def processFile (now : ℚ) (speaking : Bool) (engine : Except Unit String)
    (resolve : List Char → String) (f : FileInfo) : FileOutcome :=
  if (3 : ℚ)/4 < now - f.mtime ∧ speaking = false then
    if 1024 < f.size then
      match engine with
      | .error _ =>
          { transcribed := true, lookedUp := false, event := none, deletions := 1 }
      | .ok text =>
          let transcription := pyStrip text
          if transcription ≠ "" then
            let userId := extractUserId f.stem
            let username := resolve userId
            { transcribed := true, lookedUp := true,
              event := some (username, transcription), deletions := 1 }
          else
            { transcribed := true, lookedUp := false, event := none, deletions := 1 }
    else
      { transcribed := false, lookedUp := false, event := none, deletions := 1 }
  else
    { transcribed := false, lookedUp := false, event := none, deletions := 0 }

/-- One sweep tick over the listed staging files (the `for file_path in
files` loop of lines 167-200): every file is processed by the per-file
body; the per-file `try`/`except` means no file aborts the loop. -/
def sweepTick (now : ℚ) (speaking : Bool) (engine : FileInfo → Except Unit String)
    (resolve : List Char → String) (files : List FileInfo) : List FileOutcome :=
  files.map fun f => processFile now speaking (engine f) resolve f

/-- The `get_username` method (lines 46-61 of `src/main.py`): consult
`self.user_cache` under the key `f"{user_id}_{guild_id}"`; on a miss
run the external fetch, cache and return its result on success, and on
any exception return the fallback `f"User_{user_id}"` without touching
the cache. -/
def get_username (cache : List (String × String)) (fetch : Except Unit String)
    (userId guildId : String) : String × List (String × String) :=
  let cacheKey := userId ++ "_" ++ guildId
  match cache.lookup cacheKey with
  | some username => (username, cache)
  | none =>
    match fetch with
    | .ok username => (username, (cacheKey, username) :: cache)
    | .error _ => ("User_" ++ userId, cache)

theorem pyMax_eq_max (a b : ℚ) : pyMax a b = max a b := by
  unfold pyMax
  rcases le_total b a with h | h
  · rw [if_pos h, max_eq_left h]
  · rcases eq_or_lt_of_le h with rfl | hlt
    · simp
    · rw [if_neg (not_le.mpr hlt), max_eq_right h]

theorem cycleStep_duration_mono (start : ℚ) (st : RecState) (o : RecObs) :
    st.duration ≤ (cycleStep start st o).duration := by
  simp only [cycleStep]
  split_ifs with h1 h2 h3
  · exact le_rfl
  · show st.duration ≤ pyMax st.duration (o.time - start + 2)
    rw [pyMax_eq_max]
    exact le_max_left _ _
  · exact le_rfl
  · exact le_rfl

theorem foldl_duration_mono (start : ℚ) (l : List RecObs) (st : RecState) :
    st.duration ≤ (l.foldl (cycleStep start) st).duration := by
  induction l generalizing st with
  | nil => exact le_rfl
  | cons o l ih => exact le_trans (cycleStep_duration_mono start st o) (ih _)

theorem cycleStep_speaking (start : ℚ) (st : RecState) (o : RecObs)
    (hstop : st.stopped = false) (hspeak : o.speaking = true) :
    cycleStep start st o = { st with duration := pyMax st.duration (o.time - start + 2) } := by
  simp only [cycleStep, hstop, hspeak]
  simp

/-- C1: on every tick of a recording cycle at which the tracker reports
speaking, the target duration is updated to
`max(targetDuration, elapsed + 2)` (grace 2 s), and from that tick on
the cycle target duration stays at least `(T - startTimestamp) + 2`,
where `T` is the time of the speaking tick. -/
theorem speaking_extends_target_duration (start : ℚ) (pre : List RecObs) (o : RecObs)
    (post : List RecObs) (hspeak : o.speaking = true)
    (hactive : (cycleRun start pre).stopped = false) :
    (cycleStep start (cycleRun start pre) o).duration
        = max (cycleRun start pre).duration (o.time - start + 2)
    ∧ o.time - start + 2 ≤ (cycleRun start (pre ++ o :: post)).duration := by
  have hstep := cycleStep_speaking start (cycleRun start pre) o hactive hspeak
  constructor
  · rw [hstep]
    show pyMax _ _ = _
    rw [pyMax_eq_max]
  · have hsplit : cycleRun start (pre ++ o :: post)
        = post.foldl (cycleStep start) (cycleStep start (cycleRun start pre) o) := by
      simp [cycleRun, List.foldl_append]
    rw [hsplit]
    refine le_trans ?_ (foldl_duration_mono start post _)
    rw [hstep]
    show _ ≤ pyMax _ _
    rw [pyMax_eq_max]
    exact le_max_right _ _

/-- Witness for C1 at a concrete speaking tick. -/
theorem speaking_extends_target_duration_witness :
    (cycleStep 0 (cycleRun 0 []) { time := 5, speaking := true, lastSpeech := 5 }).duration
        = max (cycleRun 0 []).duration ((5 : ℚ) - 0 + 2)
    ∧ (5 : ℚ) - 0 + 2
        ≤ (cycleRun 0 ([] ++ { time := 5, speaking := true, lastSpeech := 5 } :: [])).duration :=
  speaking_extends_target_duration 0 [] { time := 5, speaking := true, lastSpeech := 5 } [] rfl rfl

/-- C2: a recording cycle stops only at a tick where the tracker does
not report speaking, at least 1.0 s have passed since the last speech,
and the elapsed time has reached the target duration; and in the
scenario speaking(true)@0s, speaking(false)@3s with no further speech
(ticks every 0.1 s, see `scenarioObs`), the cycle is still running
through t = 19.9 s and stops at t = 20 s with target duration 20 s. -/
theorem stop_gated_by_silence_and_target :
    (∀ (start : ℚ) (st : RecState) (o : RecObs),
        st.stopped = false → (cycleStep start st o).stopped = true →
        o.speaking = false ∧ 1 ≤ o.time - o.lastSpeech ∧ st.duration ≤ o.time - start)
    ∧ (cycleRun 0 (scenarioObs.take 200)).stopped = false
    ∧ cycleRun 0 scenarioObs = { duration := 20, stopped := true } := by
  refine ⟨?_, ?_, ?_⟩
  · intro start st o h0 h1
    simp only [cycleStep, h0] at h1
    by_cases hs : o.speaking
    · simp [hs, h0] at h1
    · rw [if_neg hs] at h1
      by_cases hc : 1 ≤ o.time - o.lastSpeech ∧ st.duration ≤ o.time - start
      · exact ⟨Bool.eq_false_iff.mpr hs, hc.1, hc.2⟩
      · rw [if_neg hc] at h1
        simp [h0] at h1
  · with_unfolding_all decide
  · with_unfolding_all decide

/-- Witness for C2 at a concrete stopping tick. -/
theorem stop_gated_by_silence_and_target_witness :
    ({ time := 25, speaking := false, lastSpeech := 0 } : RecObs).speaking = false
    ∧ (1 : ℚ) ≤ ({ time := 25, speaking := false, lastSpeech := 0 } : RecObs).time
        - ({ time := 25, speaking := false, lastSpeech := 0 } : RecObs).lastSpeech
    ∧ ({ duration := 20, stopped := false } : RecState).duration
        ≤ ({ time := 25, speaking := false, lastSpeech := 0 } : RecObs).time - 0 :=
  stop_gated_by_silence_and_target.1 0 { duration := 20, stopped := false }
    { time := 25, speaking := false, lastSpeech := 0 } rfl
    (by with_unfolding_all decide)

/-- C3: the target duration starts at 20 s and only ever increases, so
`targetDuration >= 20` is an invariant of every recording cycle, and a
cycle can only stop at a tick whose elapsed time is at least 20 s. -/
theorem target_never_below_base :
    (∀ (start : ℚ) (st : RecState) (o : RecObs),
        st.duration ≤ (cycleStep start st o).duration)
    ∧ (∀ (start : ℚ) (obs : List RecObs), 20 ≤ (cycleRun start obs).duration)
    ∧ (∀ (start : ℚ) (pre : List RecObs) (o : RecObs),
        (cycleRun start pre).stopped = false →
        (cycleStep start (cycleRun start pre) o).stopped = true →
        20 ≤ o.time - start) := by
  refine ⟨cycleStep_duration_mono, ?_, ?_⟩
  · intro start obs
    exact foldl_duration_mono start obs { duration := 20, stopped := false }
  · intro start pre o h0 h1
    have hbase : (20 : ℚ) ≤ (cycleRun start pre).duration :=
      foldl_duration_mono start pre { duration := 20, stopped := false }
    have hchar := stop_gated_by_silence_and_target.1 start (cycleRun start pre) o h0 h1
    exact le_trans hbase hchar.2.2

/-- Witness for C3 at a concrete stopping tick. -/
theorem target_never_below_base_witness :
    (20 : ℚ) ≤ (cycleRun 0 []).duration
    ∧ (20 : ℚ) ≤ ({ time := 25, speaking := false, lastSpeech := 0 } : RecObs).time - 0 :=
  ⟨target_never_below_base.2.1 0 [],
   target_never_below_base.2.2 0 [] { time := 25, speaking := false, lastSpeech := 0 } rfl
     (by with_unfolding_all decide)⟩

/-- C4 counterexample: with the session flag cleared from time 0.1 on
(`cancelTrace`), the recorder task is still inside its inner poll loop
at time 0.2 — a full 0.1 s polling interval after the clear — because
the inner loop never reads the flag; it is nowhere near `exited`. -/
theorem recorder_still_running_after_clear :
    recorderRun cancelTrace RecPhase.checking
      = RecPhase.recording 0 { duration := 20, stopped := false }
    ∧ recorderRun cancelTrace RecPhase.checking ≠ RecPhase.exited := by
  with_unfolding_all decide

/-- C4 amended: a cleared session flag is the only way either task
reaches its exited state; the sweeper reads the flag every sweep tick,
so it exits at the first tick after the clear; the recorder reads the
flag only at its outer cycle-boundary check, so mid-cycle it keeps
recording (see the counterexample) and exits only from the boundary
check — which is reached from `finalizing`, after the current capture
has been stopped and awaited. -/
theorem loop_exit_only_from_flag :
    (∀ (flag : Bool) (o : RecObs) (p : RecPhase),
        recorderStep flag o p = RecPhase.exited ↔
          p = RecPhase.exited ∨ (p = RecPhase.checking ∧ flag = false))
    ∧ (∀ (flag : Bool) (o : RecObs),
        recorderStep flag o RecPhase.finalizing = RecPhase.checking)
    ∧ (∀ (flag : Bool) (p : SweepPhase),
        sweeperStep flag p = SweepPhase.exited ↔
          p = SweepPhase.exited ∨ (p = SweepPhase.running ∧ flag = false)) := by
  refine ⟨?_, ?_, ?_⟩
  · intro flag o p
    cases p <;> cases flag <;> simp [recorderStep]
    case recording.false start st =>
      split <;> simp
    case recording.true start st =>
      split <;> simp
  · intro flag o
    rfl
  · intro flag p
    cases p <;> cases flag <;> simp [sweeperStep]

/-- Witness for the amended C4. -/
theorem loop_exit_only_from_flag_witness :
    recorderStep false { time := 0, speaking := false, lastSpeech := 0 } RecPhase.checking
      = RecPhase.exited :=
  (loop_exit_only_from_flag.1 false { time := 0, speaking := false, lastSpeech := 0 }
    RecPhase.checking).mpr (Or.inr ⟨rfl, rfl⟩)

/-- C5: a staging file whose age is below the 0.75 s settle threshold,
or observed while the tracker reports speaking, is left completely
untouched: no engine call, no lookup, no message, no deletion. -/
theorem young_or_speaking_left_untouched (now : ℚ) (speaking : Bool)
    (engine : Except Unit String) (resolve : List Char → String) (f : FileInfo)
    (h : now - f.mtime < 3/4 ∨ speaking = true) :
    processFile now speaking engine resolve f =
      { transcribed := false, lookedUp := false, event := none, deletions := 0 } := by
  have hguard : ¬((3 : ℚ)/4 < now - f.mtime ∧ speaking = false) := by
    rcases h with h | h
    · exact fun hc => absurd hc.1 (not_lt.mpr (le_of_lt h))
    · exact fun hc => by rw [h] at hc; exact absurd hc.2 (by simp)
  simp only [processFile, if_neg hguard]

/-- Witness for C5: a file of age 0.5 s. -/
theorem young_or_speaking_left_untouched_witness :
    processFile (1/2) false (Except.ok ("hello")) (fun _ => ("u"))
        { stem := ['a'], mtime := 0, size := 4096 } =
      { transcribed := false, lookedUp := false, event := none, deletions := 0 } :=
  young_or_speaking_left_untouched (1/2) false (Except.ok ("hello")) (fun _ => ("u"))
    { stem := ['a'], mtime := 0, size := 4096 }
    (Or.inl (by with_unfolding_all decide))

/-- C6: every file the sweeper observes as eligible (older than the
settle threshold, no current speech) is deleted exactly once whether
the engine returns text or raises, and each file of a sweep is
processed independently: the outcome at position `i` depends only on
that file and the engine result for it. -/
theorem observed_file_deleted_once :
    (∀ (now : ℚ) (speaking : Bool) (engine : Except Unit String)
        (resolve : List Char → String) (f : FileInfo),
        (3 : ℚ)/4 < now - f.mtime → speaking = false →
        (processFile now speaking engine resolve f).deletions = 1)
    ∧ (∀ (now : ℚ) (speaking : Bool) (engine : FileInfo → Except Unit String)
        (resolve : List Char → String) (files : List FileInfo) (i : ℕ),
        (sweepTick now speaking engine resolve files).get? i
          = (files.get? i).map fun f => processFile now speaking (engine f) resolve f)
    ∧ (∀ (now : ℚ) (speaking : Bool) (engine₁ engine₂ : FileInfo → Except Unit String)
        (resolve : List Char → String) (files : List FileInfo) (i : ℕ) (f : FileInfo),
        files.get? i = some f → engine₁ f = engine₂ f →
        (sweepTick now speaking engine₁ resolve files).get? i
          = (sweepTick now speaking engine₂ resolve files).get? i) := by
  refine ⟨?_, ?_, ?_⟩
  · intro now speaking engine resolve f h1 h2
    have hg : (3 : ℚ)/4 < now - f.mtime ∧ speaking = false := ⟨h1, h2⟩
    cases engine with
    | error e =>
      simp only [processFile, if_pos hg]
      split <;> rfl
    | ok text =>
      simp only [processFile, if_pos hg]
      split
      · split <;> rfl
      · rfl
  · intro now speaking engine resolve files i
    simp [sweepTick, List.get?_map]
  · intro now speaking engine₁ engine₂ resolve files i f hf heq
    rw [List.get?_eq_getElem?] at hf
    simp [sweepTick, hf, heq]

/-- Witness for C6: an eligible file whose transcription raises. -/
theorem observed_file_deleted_once_witness :
    (processFile 2 false (Except.error ()) (fun _ => ("u"))
        { stem := ['a'], mtime := 0, size := 4096 }).deletions = 1 :=
  observed_file_deleted_once.1 2 false (Except.error ()) (fun _ => ("u"))
    { stem := ['a'], mtime := 0, size := 4096 }
    (by with_unfolding_all decide) rfl

/-- C7: for an eligible, large-enough file whose transcription returns
text, a message is emitted only when the text is non-empty after
trimming: whitespace-only text produces no username lookup and no
message, while non-blank text produces the message with the resolved
username and the trimmed text. -/
theorem blank_transcription_no_event (now : ℚ) (speaking : Bool)
    (resolve : List Char → String) (f : FileInfo) (text : String)
    (h1 : (3 : ℚ)/4 < now - f.mtime) (h2 : speaking = false) (h3 : 1024 < f.size) :
    (pyStrip text = "" →
      processFile now speaking (Except.ok text) resolve f =
        { transcribed := true, lookedUp := false, event := none, deletions := 1 })
    ∧ (pyStrip text ≠ "" →
      processFile now speaking (Except.ok text) resolve f =
        { transcribed := true, lookedUp := true,
          event := some (resolve (extractUserId f.stem), pyStrip text), deletions := 1 }) := by
  have hg : (3 : ℚ)/4 < now - f.mtime ∧ speaking = false := ⟨h1, h2⟩
  constructor
  · intro hempty
    simp only [processFile, if_pos hg, if_pos h3]
    simp [hempty]
  · intro hne
    simp only [processFile, if_pos hg, if_pos h3]
    simp [hne]

/-- Witness for C7: whitespace-only engine output. -/
theorem blank_transcription_no_event_witness :
    processFile 2 false (Except.ok ("  ")) (fun _ => ("u"))
        { stem := ['a'], mtime := 0, size := 4096 } =
      { transcribed := true, lookedUp := false, event := none, deletions := 1 } :=
  (blank_transcription_no_event 2 false (fun _ => ("u"))
      { stem := ['a'], mtime := 0, size := 4096 } ("  ")
      (by with_unfolding_all decide) rfl (by decide)).1 (by decide)

/-- C8: an eligible staging file of at most 1024 bytes is deleted
without invoking the transcription engine and without any message. -/
theorem small_file_deleted_untranscribed (now : ℚ) (speaking : Bool)
    (engine : Except Unit String) (resolve : List Char → String) (f : FileInfo)
    (h1 : (3 : ℚ)/4 < now - f.mtime) (h2 : speaking = false) (h3 : f.size ≤ 1024) :
    processFile now speaking engine resolve f =
      { transcribed := false, lookedUp := false, event := none, deletions := 1 } := by
  have hg : (3 : ℚ)/4 < now - f.mtime ∧ speaking = false := ⟨h1, h2⟩
  simp only [processFile, if_pos hg, if_neg (not_lt.mpr h3)]

/-- Witness for C8: the spec scenario, a 500-byte file aged 2 s with no
concurrent speech. -/
theorem small_file_deleted_untranscribed_witness :
    processFile 2 false (Except.ok ("hello")) (fun _ => ("u"))
        { stem := ['a'], mtime := 0, size := 500 } =
      { transcribed := false, lookedUp := false, event := none, deletions := 1 } :=
  small_file_deleted_untranscribed 2 false (Except.ok ("hello")) (fun _ => ("u"))
    { stem := ['a'], mtime := 0, size := 500 }
    (by with_unfolding_all decide) rfl (by decide)

theorem pySplit_ne_nil (sep : Char) (l : List Char) : pySplit sep l ≠ [] := by
  induction l with
  | nil => simp [pySplit]
  | cons c cs ih =>
    simp only [pySplit]
    split_ifs with h
    · simp
    · cases hps : pySplit sep cs with
      | nil => exact absurd hps ih
      | cons t ts => simp

theorem pySplit_head (sep : Char) (l : List Char) :
    (pySplit sep l).getD 0 [] = l.takeWhile (fun c => c != sep) := by
  induction l with
  | nil => rfl
  | cons c cs ih =>
    simp only [pySplit]
    split_ifs with h
    · simp [List.takeWhile, h]
    · cases hps : pySplit sep cs with
      | nil => exact absurd hps (pySplit_ne_nil sep cs)
      | cons t ts =>
        rw [hps] at ih
        simp only [List.getD_cons_zero] at ih
        have hb : (c != sep) = true := by simp [bne, h]
        simp [List.takeWhile, h, ih, hb]

theorem pySplit_append (sep : Char) (pre rest : List Char) (hpre : sep ∉ pre) :
    pySplit sep (pre ++ sep :: rest) = pre :: pySplit sep rest := by
  induction pre with
  | nil => simp [pySplit]
  | cons c pre ih =>
    have hc : c ≠ sep := fun h => hpre (by simp [h])
    have hs : sep ∉ pre := fun h => hpre (List.mem_cons_of_mem _ h)
    simp only [List.cons_append, pySplit, List.append_eq]
    rw [if_neg hc, ih hs]

/-- C9: on a cache miss, a name-resolution failure makes `get_username`
return the synthesized placeholder `User_<id>` instead of propagating
the error, and the cache is left unchanged. -/
theorem lookup_failure_placeholder (cache : List (String × String)) (userId guildId : String)
    (h : cache.lookup (userId ++ "_" ++ guildId) = none) :
    (get_username cache (Except.error ()) userId guildId).1 = "User_" ++ userId
    ∧ (get_username cache (Except.error ()) userId guildId).2 = cache := by
  simp [get_username, h]

/-- Witness for C9: a lookup failure for participant 42 yields
User_42. -/
theorem lookup_failure_placeholder_witness :
    (get_username [] (Except.error ()) ("42") ("99")).1 = "User_" ++ ("42") :=
  (lookup_failure_placeholder [] ("42") ("99") rfl).1

/-- C10: the participant identifier is recovered from the filename stem
alone: with no underscore in the stem the whole stem is used; when the
stem decomposes as `pre ++ underscore ++ rest` with no underscore in
`pre`, the extracted identifier is the part of `rest` up to the next
underscore (the token at index 1 of the split) — which is empty for a
stem that ends right at its first underscore, such as `x_`. -/
theorem user_id_second_token :
    (∀ stem : List Char, '_' ∉ stem → extractUserId stem = stem)
    ∧ (∀ pre rest : List Char, '_' ∉ pre →
        extractUserId (pre ++ '_' :: rest) = rest.takeWhile (fun c => c != '_'))
    ∧ extractUserId ['x', '_'] = [] := by
  refine ⟨?_, ?_, by decide⟩
  · intro stem h
    simp [extractUserId, h]
  · intro pre rest hpre
    have hmem : '_' ∈ pre ++ '_' :: rest :=
      List.mem_append_right _ (List.mem_cons_self _ _)
    simp only [extractUserId, if_pos hmem]
    rw [pySplit_append '_' pre rest hpre]
    simp only [List.getD_cons_succ]
    exact pySplit_head '_' rest

/-- Witness for C10 on the stem a_b_c: the identifier is b. -/
theorem user_id_second_token_witness :
    extractUserId (['a'] ++ '_' :: ['b', '_', 'c'])
      = (['b', '_', 'c']).takeWhile (fun c => c != '_') :=
  user_id_second_token.2.1 ['a'] ['b', '_', 'c'] (by decide)

end VoiceTranscriber
